import Mathlib

/-!
Shallow embedding of `main.py` from the pptx-to-video repository.

The program is a sequential pipeline: extract presenter notes from a PPTX,
export slides to JPG images, translate notes per language, synthesize
narration audio per non-blank note, and assemble one MP4 per language.
External collaborators (PowerPoint automation, Google Translate, gTTS,
moviepy) are modelled as function parameters; their effects are recorded
as call descriptors so that call/no-call behaviour is provable.
-/

namespace PptxToVideo

/-- Python `c` is stripped by `str.strip()`: the ASCII whitespace characters. -/
def pyIsSpace (c : Char) : Bool :=
  c = ' ' || c = '\t' || c = '\n' || c = '\x0d' || c = '\x0b' || c = '\x0c'

/-- `not t.strip()` in Python: `t` consists only of whitespace (or is empty).
This is the emptiness test the pipeline applies to notes text. -/
def pyBlank (s : String) : Bool :=
  s.toList.all pyIsSpace

/-- Python `s.endswith(suf)`: suffix match on the code points of `s`.
(Stated over character lists so that it reduces computably.) -/
def pyEndsWith (s suf : String) : Bool :=
  suf.toList.isSuffixOf s.toList

/-- `os.path.join a b` for a relative `b` (posix flavour): concatenate with a
single separator unless `a` is empty or already ends with the separator. -/
def joinPath (a b : String) : String :=
  if a = "" then b
  else if pyEndsWith a "/" then a ++ b
  else a ++ "/" ++ b

/-- `os.path.basename p`: the part of `p` after the last path separator. -/
def pyBasename (p : String) : String :=
  String.mk (p.toList.foldl (fun acc c => if c = '/' then [] else acc ++ [c]) [])

/-- `os.path.splitext b [0]` for a separator-free name `b`: everything before
the last dot, except that a name whose characters before that dot are all
dots (e.g. `.bashrc`, `..txt`) has no extension and is returned whole. -/
def pySplitextStem (b : String) : String :=
  let cs := b.toList
  if '.' ∈ cs then
    let stem := ((cs.reverse.dropWhile (fun c => c ≠ '.')).tail).reverse
    if stem.any (fun c => c ≠ '.') then String.mk stem else b
  else b

/-- `translate_texts texts target` from `main.py` (STEP 3), with the external
`GoogleTranslator(source="auto", target=target).translate` call abstracted as
`translator source target text`. Returns the result list together with the
list of texts actually sent to the translation service, in call order. -/
def translate_texts (translator : String → String → String → String)
    (texts : List String) (target : String) : List String × List String :=
  match texts with
  | [] => ([], [])
  | t :: ts =>
      let rest := translate_texts translator ts target
      if pyBlank t then ("" :: rest.1, rest.2)
      else (translator "auto" target t :: rest.1, t :: rest.2)

/-- A language entry of the static `LANGUAGES` configuration list. -/
structure Language where
  code : String
  label : String
deriving DecidableEq, Repr

/-- The default `LANGUAGES` configuration list of `main.py`. -/
def LANGUAGES : List Language :=
  [⟨"en", "English"⟩, ⟨"fr", "French"⟩, ⟨"es", "Spanish"⟩,
   ⟨"pt", "Portuguese"⟩, ⟨"hi", "Hindi"⟩, ⟨"si", "Sinhala"⟩]

/-- The `default_voice` configuration table of `main.py`:
language code ↦ (language_code, voice name). -/
def default_voice : List (String × String × String) :=
  [("en", "en-US", "en-US-Neural2-D"),
   ("fr", "fr-FR", "fr-FR-Neural2-A"),
   ("es", "es-ES", "es-ES-Neural2-A"),
   ("pt", "pt-BR", "pt-BR-Neural2-A"),
   ("hi", "hi-IN", "hi-IN-Neural2-A"),
   ("si", "si-LK", "si-LK-Standard-A")]

/-- `POST_AUDIO_PADDING = 1.5` extra seconds per slide after narration ends. -/
def POST_AUDIO_PADDING : ℚ := 1.5

/-- One call to the speech-synthesis service: the arguments `main.py` passes
to `gTTS(text=text, lang=lang_code)` / `tts.save(out_path)`. -/
structure SynthCall where
  text : String
  lang : String
  path : String
deriving DecidableEq, Repr

/-- `synthesize_speech text lang_code out_path` (STEP 4): performs one
synthesis call built from exactly these three arguments and returns
`out_path`.  The call descriptor is returned alongside so the calls made
are observable in the model. -/
def synthesize_speech (text lang_code out_path : String) : SynthCall × String :=
  (⟨text, lang_code, out_path⟩, out_path)

/-- The per-slide audio file name `f"slide_{i+1}_{code}.mp3"` joined
under the temporary directory. -/
def audioPath (tmpDir : String) (i : Nat) (code : String) : String :=
  joinPath tmpDir ("slide_" ++ toString (i + 1) ++ "_" ++ code ++ ".mp3")

/-- The narration-generation loop of `run_pipeline` (lines 148-156):
walking the language's notes with index `i`, a non-blank note makes a
synthesis call and contributes `some` audio path; a blank note makes no
call and contributes `none`.  Returns the audio-file list and the
synthesis calls made. -/
def genAudioFiles (tmpDir code : String) :
    Nat → List String → List (Option String) × List SynthCall
  | _, [] => ([], [])
  | i, txt :: rest =>
      let tail := genAudioFiles tmpDir code (i + 1) rest
      if pyBlank txt then (none :: tail.1, tail.2)
      else
        let ap := audioPath tmpDir i code
        (some ap :: tail.1, (synthesize_speech txt code ap).1 :: tail.2)

/-- One video clip as assembled by `assemble_video`: the slide image, the
(optional) attached audio, and the display duration in seconds. -/
structure ClipSpec where
  image : String
  audio : Option String
  duration : ℚ
deriving DecidableEq, Repr

/-- Python truthiness of an `Optional[str]`: `None` and `""` are falsy. -/
def optTruthy : Option String → Bool
  | none => false
  | some s => s ≠ ""

/-- The clip built for one `(img, aud)` pair in `assemble_video`'s loop:
if `aud` is truthy the duration is the audio duration plus
`POST_AUDIO_PADDING`, otherwise the fixed default `4.0` seconds.
`durOf` abstracts `AudioFileClip(aud).duration`. -/
def clipFor (durOf : String → ℚ) (img : String) (aud : Option String) : ClipSpec :=
  match aud with
  | some s => if s = "" then ⟨img, some s, 4⟩
              else ⟨img, some s, durOf s + POST_AUDIO_PADDING⟩
  | none => ⟨img, none, 4⟩

/-- `assemble_video slide_images audio_files` (STEP 5): `zip` the images
with the audio entries and build one clip per pair. -/
def assemble_video (durOf : String → ℚ) :
    List String → List (Option String) → List ClipSpec
  | img :: imgs, aud :: auds =>
      clipFor durOf img aud :: assemble_video durOf imgs auds
  | _, _ => []

/-- `export_slides_as_images pptx_path out_dir` (STEP 2): PowerPoint saves
the slides as JPGs into the directory `out_dir/slide_image`; the function
returns the directory entries ending in `".JPG"`, sorted by filename and
joined under that directory.  `listdir` abstracts `os.listdir`. -/
def export_slides_as_images (listdir : String → List String)
    (pptx_path out_dir : String) : List String :=
  let _ := pptx_path
  let base := joinPath out_dir "slide_image"
  (((listdir base).mergeSort (fun a b => decide (a ≤ b))).filter
      (fun f => pyEndsWith f ".JPG")).map (fun f => joinPath base f)

/-- The per-language record produced by one iteration of `run_pipeline`'s
language loop (lines 138-164): the language code, the notes actually used
for synthesis, the texts sent to the translation service, the audio list
passed to `assemble_video`, the synthesis calls made, the assembled clips
and the output video path. -/
structure LangResult where
  code : String
  usedNotes : List String
  transCalls : List String
  audioFiles : List (Option String)
  synthCalls : List SynthCall
  clips : List ClipSpec
  outFile : String
deriving DecidableEq, Repr

/-- One iteration of `run_pipeline`'s `for lang in languages` loop:
translate the notes unless the language is `"en"`, generate narration
audio per slide, and assemble the video under
`output_dir/<basename-stem>_<code>.mp4`. -/
def processLang (translator : String → String → String → String)
    (durOf : String → ℚ) (outputDir tmpDir pptxPath : String)
    (notes images : List String) (lang : Language) : LangResult :=
  let code := lang.code
  let langNotes := if code = "en" then notes
                   else (translate_texts translator notes code).1
  let transCalls := if code = "en" then ([] : List String)
                    else (translate_texts translator notes code).2
  let ga := genAudioFiles tmpDir code 0 langNotes
  let outFile := joinPath outputDir
      (pySplitextStem (pyBasename pptxPath) ++ "_" ++ code ++ ".mp4")
  { code := code, usedNotes := langNotes, transCalls := transCalls,
    audioFiles := ga.1, synthCalls := ga.2,
    clips := assemble_video durOf images ga.1, outFile := outFile }

/-- `run_pipeline pptx_path languages` (MAIN PIPELINE): `notes` and
`images` are the results of the extraction and export steps; each
configured language is processed in order by `processLang`. -/
def run_pipeline (translator : String → String → String → String)
    (durOf : String → ℚ) (outputDir tmpDir pptxPath : String)
    (notes images : List String) (languages : List Language) :
    List LangResult :=
  languages.map (processLang translator durOf outputDir tmpDir pptxPath notes images)

/-- `run_pipeline` with the `default_voice`-style configuration table made
an explicit parameter: the table is a global the pipeline never reads, so
the wrapper ignores it. -/
def run_pipeline_withVoices (voiceTable : List (String × String × String))
    (translator : String → String → String → String)
    (durOf : String → ℚ) (outputDir tmpDir pptxPath : String)
    (notes images : List String) (languages : List Language) :
    List LangResult :=
  let _ := voiceTable
  run_pipeline translator durOf outputDir tmpDir pptxPath notes images languages

/-- The parsed command line of the `__main__` block: the required `pptx`
positional and the optional `--languages` list. -/
structure Args where
  pptx : String
  languages : Option (List String)
deriving DecidableEq, Repr

/-- The `__main__` block: parse the arguments, set `langs = LANGUAGES`
(the `--languages` value is never consulted) and run the pipeline. -/
def mainRun (translator : String → String → String → String)
    (durOf : String → ℚ) (outputDir tmpDir : String)
    (notes images : List String) (args : Args) : List LangResult :=
  run_pipeline translator durOf outputDir tmpDir args.pptx notes images LANGUAGES

/-- The external collaborators of the pipeline as fallible calls: any of
them may raise, and `main.py` contains no `try`/`except`, so the model
propagates every `Except.error` outward unchanged. -/
structure Ext where
  extractNotes : String → Except String (List String)
  exportSlides : String → String → Except String (List String)
  translateOne : String → String → String → Except String String
  synthOne : String → String → String → Except String String
  writeVideo : List String → List (Option String) → String → Except String Unit

/-- `translate_texts` with a fallible translation service: the loop stops
at the first raised error. -/
def translateTextsE (ext : Ext) : List String → String → Except String (List String)
  | [], _ => pure []
  | t :: ts, target => do
      if pyBlank t then
        let rs ← translateTextsE ext ts target
        pure ("" :: rs)
      else
        let r ← ext.translateOne "auto" target t
        let rs ← translateTextsE ext ts target
        pure (r :: rs)

/-- The narration-generation loop with a fallible synthesis service. -/
def genAudioFilesE (ext : Ext) (tmpDir code : String) :
    Nat → List String → Except String (List (Option String))
  | _, [] => pure []
  | i, txt :: rest => do
      if pyBlank txt then
        let tail ← genAudioFilesE ext tmpDir code (i + 1) rest
        pure (none :: tail)
      else
        let ap := audioPath tmpDir i code
        let _ ← ext.synthOne txt code ap
        let tail ← genAudioFilesE ext tmpDir code (i + 1) rest
        pure (some ap :: tail)

/-- One language iteration of `run_pipeline` with fallible collaborators;
returns the saved output file path. -/
def processLangE (ext : Ext) (outputDir tmpDir pptxPath : String)
    (notes images : List String) (lang : Language) : Except String String := do
  let code := lang.code
  let langNotes ← if code = "en" then pure notes else translateTextsE ext notes code
  let audioFiles ← genAudioFilesE ext tmpDir code 0 langNotes
  let outFile := joinPath outputDir
      (pySplitextStem (pyBasename pptxPath) ++ "_" ++ code ++ ".mp4")
  let _ ← ext.writeVideo images audioFiles outFile
  pure outFile

/-- The `for lang in languages` loop with fallible collaborators: fully
sequential, no per-language isolation. -/
def processLangsE (ext : Ext) (outputDir tmpDir pptxPath : String)
    (notes images : List String) : List Language → Except String (List String)
  | [] => pure []
  | l :: ls => do
      let f ← processLangE ext outputDir tmpDir pptxPath notes images l
      let fs ← processLangsE ext outputDir tmpDir pptxPath notes images ls
      pure (f :: fs)

/-- `run_pipeline` with fallible collaborators: extraction, export, then
the sequential language loop; every error propagates uncaught. -/
def run_pipelineE (ext : Ext) (outputDir tmpDir pptxPath : String)
    (languages : List Language) : Except String (List String) := do
  let notes ← ext.extractNotes pptxPath
  let images ← ext.exportSlides pptxPath tmpDir
  processLangsE ext outputDir tmpDir pptxPath notes images languages

/-- A concrete collaborator record whose translation call raises
`"network"`, with every other external call succeeding: exhibits error
propagation on a concrete run. -/
def extFailTranslate : Ext where
  extractNotes := fun _ => .ok ["Hello"]
  exportSlides := fun _ _ => .ok ["img1"]
  translateOne := fun _ _ _ => .error "network"
  synthOne := fun _ _ p => .ok p
  writeVideo := fun _ _ _ => .ok ()

/-! ### Helper lemmas about the embedded operations -/

theorem translate_texts_fst (translator : String → String → String → String)
    (texts : List String) (target : String) :
    (translate_texts translator texts target).1
      = texts.map (fun t => if pyBlank t then "" else translator "auto" target t) := by
  induction texts with
  | nil => rfl
  | cons t ts ih =>
      simp only [translate_texts, List.map_cons]
      by_cases h : pyBlank t
      · simp [h, ih]
      · simp [h, ih]

theorem translate_texts_snd (translator : String → String → String → String)
    (texts : List String) (target : String) :
    (translate_texts translator texts target).2
      = texts.filter (fun t => !pyBlank t) := by
  induction texts with
  | nil => rfl
  | cons t ts ih =>
      simp only [translate_texts, List.filter_cons]
      by_cases h : pyBlank t
      · simp [h, ih]
      · simp [h, ih]

theorem genAudioFiles_fst_getElem (tmpDir code : String) (txts : List String)
    (i0 j : Nat) :
    (genAudioFiles tmpDir code i0 txts).1[j]?
      = txts[j]?.map
          (fun t => if pyBlank t then none else some (audioPath tmpDir (i0 + j) code)) := by
  induction txts generalizing i0 j with
  | nil => simp [genAudioFiles]
  | cons t ts ih =>
      match j with
      | 0 =>
          by_cases h : pyBlank t <;>
            simp [genAudioFiles, h]
      | j + 1 =>
          by_cases h : pyBlank t <;>
            simpa [genAudioFiles, h, Nat.add_comm, Nat.add_left_comm] using ih (i0 + 1) j

theorem genAudioFiles_fst_length (tmpDir code : String) (txts : List String)
    (i0 : Nat) :
    (genAudioFiles tmpDir code i0 txts).1.length = txts.length := by
  induction txts generalizing i0 with
  | nil => rfl
  | cons t ts ih =>
      by_cases h : pyBlank t <;> simp [genAudioFiles, h, ih]

theorem genAudioFiles_snd_mem (tmpDir code : String) (txts : List String)
    (i0 : Nat) : ∀ c ∈ (genAudioFiles tmpDir code i0 txts).2,
      pyBlank c.text = false ∧ c.lang = code := by
  induction txts generalizing i0 with
  | nil => intro c hc; simp [genAudioFiles] at hc
  | cons t ts ih =>
      intro c hc
      by_cases h : pyBlank t
      · exact ih (i0 + 1) c (by simpa [genAudioFiles, h] using hc)
      · simp only [genAudioFiles, h, if_neg, Bool.false_eq_true, ite_false,
          List.mem_cons] at hc
        rcases hc with hc | hc
        · subst hc; exact ⟨by simpa using h, rfl⟩
        · exact ih (i0 + 1) c hc

theorem assemble_video_eq_zip_map (durOf : String → ℚ)
    (imgs : List String) (auds : List (Option String)) :
    assemble_video durOf imgs auds
      = (imgs.zip auds).map (fun p => clipFor durOf p.1 p.2) := by
  induction imgs generalizing auds with
  | nil => cases auds <;> rfl
  | cons img imgs ih =>
      cases auds with
      | nil => rfl
      | cons aud auds => simp [assemble_video, ih]

theorem exceptBind_ok {α β : Type} (v : α) (f : α → Except String β) :
    (Except.ok v >>= f) = f v := rfl

theorem exceptBind_error {α β : Type} (e : String) (f : α → Except String β) :
    ((Except.error e : Except String α) >>= f) = Except.error e := rfl

theorem processLangsE_append_error (ext : Ext)
    (outputDir tmpDir pptxPath : String) (notes images : List String)
    (pre : List Language) (L : Language) (post : List Language) (e : String)
    (hpre : ∀ l ∈ pre, ∃ v, processLangE ext outputDir tmpDir pptxPath notes images l
        = .ok v)
    (hL : processLangE ext outputDir tmpDir pptxPath notes images L = .error e) :
    processLangsE ext outputDir tmpDir pptxPath notes images (pre ++ L :: post)
      = .error e := by
  induction pre with
  | nil =>
      simp only [List.nil_append, processLangsE, hL, exceptBind_error]
  | cons l ls ih =>
      obtain ⟨v, hv⟩ := hpre l (List.mem_cons_self l ls)
      have hrest := ih (fun l' hl' => hpre l' (List.mem_cons_of_mem l hl'))
      simp only [List.cons_append, processLangsE, hv, exceptBind_ok]
      rw [show processLangsE ext outputDir tmpDir pptxPath notes images
            (ls.append (L :: post)) = Except.error e from hrest]
      simp only [exceptBind_error]

theorem processLang_code (translator : String → String → String → String)
    (durOf : String → ℚ) (outputDir tmpDir pptxPath : String)
    (notes images : List String) (lang : Language) :
    (processLang translator durOf outputDir tmpDir pptxPath notes images lang).code
      = lang.code := rfl

theorem processLang_usedNotes (translator : String → String → String → String)
    (durOf : String → ℚ) (outputDir tmpDir pptxPath : String)
    (notes images : List String) (lang : Language) :
    (processLang translator durOf outputDir tmpDir pptxPath notes images lang).usedNotes
      = if lang.code = "en" then notes
        else (translate_texts translator notes lang.code).1 := rfl

theorem processLang_transCalls (translator : String → String → String → String)
    (durOf : String → ℚ) (outputDir tmpDir pptxPath : String)
    (notes images : List String) (lang : Language) :
    (processLang translator durOf outputDir tmpDir pptxPath notes images lang).transCalls
      = if lang.code = "en" then ([] : List String)
        else (translate_texts translator notes lang.code).2 := rfl

theorem processLang_audioFiles (translator : String → String → String → String)
    (durOf : String → ℚ) (outputDir tmpDir pptxPath : String)
    (notes images : List String) (lang : Language) :
    (processLang translator durOf outputDir tmpDir pptxPath notes images lang).audioFiles
      = (genAudioFiles tmpDir lang.code 0
          (if lang.code = "en" then notes
           else (translate_texts translator notes lang.code).1)).1 := rfl

theorem processLang_synthCalls (translator : String → String → String → String)
    (durOf : String → ℚ) (outputDir tmpDir pptxPath : String)
    (notes images : List String) (lang : Language) :
    (processLang translator durOf outputDir tmpDir pptxPath notes images lang).synthCalls
      = (genAudioFiles tmpDir lang.code 0
          (if lang.code = "en" then notes
           else (translate_texts translator notes lang.code).1)).2 := rfl

theorem processLang_outFile (translator : String → String → String → String)
    (durOf : String → ℚ) (outputDir tmpDir pptxPath : String)
    (notes images : List String) (lang : Language) :
    (processLang translator durOf outputDir tmpDir pptxPath notes images lang).outFile
      = joinPath outputDir
          (pySplitextStem (pyBasename pptxPath) ++ "_" ++ lang.code ++ ".mp4") := rfl

/-! ### Claim theorems -/

/-- C1: for every notes list processed by the pipeline driver, the audio
list passed to video assembly has exactly one entry per note (same length
and order as the notes list); position `i` holds an audio file path when
the (possibly translated) note at position `i` is non-empty (contains a
non-whitespace character, the `txt.strip()` test the pipeline applies) and
holds `none` when it is empty, and no synthesis call is ever made for an
empty note, so the list is never shortened. -/
theorem C1_audio_alignment (translator : String → String → String → String)
    (durOf : String → ℚ) (outputDir tmpDir pptxPath : String)
    (notes images : List String) (languages : List Language) (r : LangResult)
    (hr : r ∈ run_pipeline translator durOf outputDir tmpDir pptxPath notes
        images languages) :
    r.usedNotes.length = notes.length ∧
    r.audioFiles.length = notes.length ∧
    (∀ i t, r.usedNotes[i]? = some t →
        (pyBlank t = false →
            r.audioFiles[i]? = some (some (audioPath tmpDir i r.code))) ∧
        (pyBlank t = true → r.audioFiles[i]? = some none)) ∧
    (∀ c ∈ r.synthCalls, pyBlank c.text = false) := by
  rcases List.mem_map.mp hr with ⟨lang, _, rfl⟩
  have hlen : (if lang.code = "en" then notes
      else (translate_texts translator notes lang.code).1).length = notes.length := by
    by_cases h : lang.code = "en"
    · rw [if_pos h]
    · rw [if_neg h, translate_texts_fst, List.length_map]
  refine ⟨?_, ?_, ?_, ?_⟩
  · rw [processLang_usedNotes]; exact hlen
  · rw [processLang_audioFiles, genAudioFiles_fst_length]; exact hlen
  · intro i t ht
    rw [processLang_usedNotes] at ht
    rw [processLang_audioFiles, processLang_code]
    constructor
    · intro hb
      rw [genAudioFiles_fst_getElem, ht]
      simp [hb]
    · intro hb
      rw [genAudioFiles_fst_getElem, ht]
      simp [hb]
  · intro c hc
    rw [processLang_synthCalls] at hc
    exact (genAudioFiles_snd_mem tmpDir lang.code _ 0 c hc).1

/-- C1 witness: a concrete run over notes `["Hi", ""]` for French: the
audio list keeps both positions, with a path at position 0 and `none` at
position 1. -/
theorem C1_audio_alignment_witness :
    (processLang (fun _ _ t => t) (fun _ => 1) "out" "tmp" "d.pptx"
        ["Hi", ""] ["i1", "i2"] ⟨"fr", "French"⟩).audioFiles.length = 2 ∧
    (processLang (fun _ _ t => t) (fun _ => 1) "out" "tmp" "d.pptx"
        ["Hi", ""] ["i1", "i2"] ⟨"fr", "French"⟩).audioFiles[0]?
      = some (some (audioPath "tmp" 0 "fr")) ∧
    (processLang (fun _ _ t => t) (fun _ => 1) "out" "tmp" "d.pptx"
        ["Hi", ""] ["i1", "i2"] ⟨"fr", "French"⟩).audioFiles[1]?
      = some none := by
  have h := C1_audio_alignment (fun _ _ t => t) (fun _ => 1) "out" "tmp" "d.pptx"
    ["Hi", ""] ["i1", "i2"] [⟨"fr", "French"⟩]
    (processLang (fun _ _ t => t) (fun _ => 1) "out" "tmp" "d.pptx"
        ["Hi", ""] ["i1", "i2"] ⟨"fr", "French"⟩)
    (by simp [run_pipeline])
  refine ⟨h.2.1, ?_, ?_⟩
  · exact (h.2.2.1 0 "Hi" rfl).1 (by decide)
  · exact (h.2.2.1 1 "" rfl).2 (by decide)

/-- C2 counterexample: on the input list `[" "]` (a non-empty string) with
target `"fr"` and a translation service returning `"X"`, `translate_texts`
makes no translation call and returns `[""]`, not the translation result,
so it is false that every non-empty string is replaced by the result of
one external translation call. -/
theorem C2_counterexample :
    (" " : String) ≠ "" ∧
    (translate_texts (fun _ _ _ => "X") [" "] "fr").1 = [""] ∧
    (translate_texts (fun _ _ _ => "X") [" "] "fr").1 ≠ ["X"] ∧
    (translate_texts (fun _ _ _ => "X") [" "] "fr").2 = [] := by
  refine ⟨by decide, rfl, by decide, rfl⟩

/-- C2 (amended): `translate_texts` returns a list of the same length and
order in which every string that is empty or whitespace-only is mapped to
the empty string with no translation call, and every string containing a
non-whitespace character is replaced by the result of one external
translation call with automatic source-language detection; in particular
for `["Hello", "", "World"]` the empty string is untranslated at
position 1. -/
theorem C2_translate_contract (translator : String → String → String → String)
    (texts : List String) (target : String) :
    (translate_texts translator texts target).1.length = texts.length ∧
    (translate_texts translator texts target).1
      = texts.map (fun t => if pyBlank t then "" else translator "auto" target t) ∧
    (translate_texts translator texts target).2
      = texts.filter (fun t => !pyBlank t) ∧
    (translate_texts translator ["Hello", "", "World"] "fr").1
      = [translator "auto" "fr" "Hello", "", translator "auto" "fr" "World"] := by
  refine ⟨?_, translate_texts_fst translator texts target,
    translate_texts_snd translator texts target, ?_⟩
  · rw [translate_texts_fst]; exact List.length_map _ _
  · rw [translate_texts_fst]; rfl

/-- C3: in `assemble_video`, a pair whose audio entry is present gets
display duration equal to the audio duration plus `POST_AUDIO_PADDING`
(1.5 seconds), and a pair with an absent audio entry gets the fixed
default duration of 4.0 seconds. -/
theorem C3_clip_durations (durOf : String → ℚ) (images : List String)
    (audios : List (Option String)) (i : Nat) :
    POST_AUDIO_PADDING = (3 : ℚ) / 2 ∧
    (∀ img s, (images.zip audios)[i]? = some (img, some s) → s ≠ "" →
        (assemble_video durOf images audios)[i]?
          = some ⟨img, some s, durOf s + POST_AUDIO_PADDING⟩) ∧
    (∀ img, (images.zip audios)[i]? = some (img, none) →
        (assemble_video durOf images audios)[i]? = some ⟨img, none, 4⟩) := by
  refine ⟨by norm_num [POST_AUDIO_PADDING], ?_, ?_⟩
  · intro img s hz hs
    rw [assemble_video_eq_zip_map, List.getElem?_map, hz]
    simp [clipFor, hs]
  · intro img hz
    rw [assemble_video_eq_zip_map, List.getElem?_map, hz]
    simp [clipFor]

/-- C3 witness: with an audio clip of duration 10 the slide clip lasts
`10 + POST_AUDIO_PADDING`; with no audio it lasts 4 seconds. -/
theorem C3_clip_durations_witness :
    (assemble_video (fun _ => 10) ["i1"] [some "a"])[0]?
      = some ⟨"i1", some "a", 10 + POST_AUDIO_PADDING⟩ ∧
    (assemble_video (fun _ => 10) ["i2"] [none])[0]? = some ⟨"i2", none, 4⟩ := by
  refine ⟨(C3_clip_durations (fun _ => 10) ["i1"] [some "a"] 0).2.1 "i1" "a" rfl
      (by decide),
    (C3_clip_durations (fun _ => 10) ["i2"] [none] 0).2.2 "i2" rfl⟩

/-- C4: for every deck file path and configured language, the output video
path produced by the pipeline driver is the output directory joined with
`<deck-basename>_<language-code>.mp4`, where the deck basename is the
input file's base name with its extension removed. -/
theorem C4_output_filenames (translator : String → String → String → String)
    (durOf : String → ℚ) (outputDir tmpDir pptxPath : String)
    (notes images : List String) (languages : List Language) :
    (run_pipeline translator durOf outputDir tmpDir pptxPath notes images
        languages).map (fun r => r.outFile)
      = languages.map (fun lang => joinPath outputDir
          (pySplitextStem (pyBasename pptxPath) ++ "_" ++ lang.code ++ ".mp4")) := by
  simp only [run_pipeline, List.map_map]
  rfl

/-- C5: when the language being processed is the source language `"en"`,
the driver makes no translation call and the notes used for synthesis are
exactly the extracted notes; for every other language code it translates
all notes (one `translate_texts` call over the full notes list). -/
theorem C5_source_language (translator : String → String → String → String)
    (durOf : String → ℚ) (outputDir tmpDir pptxPath : String)
    (notes images : List String) (languages : List Language) (r : LangResult)
    (hr : r ∈ run_pipeline translator durOf outputDir tmpDir pptxPath notes
        images languages) :
    (r.code = "en" → r.usedNotes = notes ∧ r.transCalls = []) ∧
    (r.code ≠ "en" →
        r.usedNotes = (translate_texts translator notes r.code).1 ∧
        r.transCalls = (translate_texts translator notes r.code).2) := by
  rcases List.mem_map.mp hr with ⟨lang, _, rfl⟩
  simp only [processLang_code, processLang_usedNotes, processLang_transCalls]
  by_cases h : lang.code = "en"
  · simp [h]
  · simp [h]

/-- C5 witness: a concrete English run passes the notes through unmodified
and sends nothing to the translation service. -/
theorem C5_source_language_witness :
    (processLang (fun _ _ t => "T" ++ t) (fun _ => 1) "out" "tmp" "d.pptx"
        ["Hi"] ["i"] ⟨"en", "English"⟩).usedNotes = ["Hi"] ∧
    (processLang (fun _ _ t => "T" ++ t) (fun _ => 1) "out" "tmp" "d.pptx"
        ["Hi"] ["i"] ⟨"en", "English"⟩).transCalls = [] := by
  exact (C5_source_language (fun _ _ t => "T" ++ t) (fun _ => 1) "out" "tmp"
      "d.pptx" ["Hi"] ["i"] [⟨"en", "English"⟩]
      (processLang (fun _ _ t => "T" ++ t) (fun _ => 1) "out" "tmp" "d.pptx"
        ["Hi"] ["i"] ⟨"en", "English"⟩)
      (by simp [run_pipeline])).1 rfl

/-- C6: the optional `--languages` argument is accepted by the parser but
has no effect: the pipeline always runs with the full default `LANGUAGES`
list, so two invocations differing only in that argument coincide. -/
theorem C6_languages_flag_ignored (translator : String → String → String → String)
    (durOf : String → ℚ) (outputDir tmpDir pptx : String)
    (notes images : List String) (l1 l2 : Option (List String)) :
    mainRun translator durOf outputDir tmpDir notes images ⟨pptx, l1⟩
      = mainRun translator durOf outputDir tmpDir notes images ⟨pptx, l2⟩ ∧
    mainRun translator durOf outputDir tmpDir notes images ⟨pptx, l1⟩
      = run_pipeline translator durOf outputDir tmpDir pptx notes images
          LANGUAGES :=
  ⟨rfl, rfl⟩

/-- C7: the synthesis call depends only on the text and the language code:
the per-language voice table is never read by `synthesize_speech` or any
pipeline step, so changing it leaves every run unchanged, and every
synthesis call made carries exactly the language code as its voice
selector. -/
theorem C7_voice_table_unused (v1 v2 : List (String × String × String))
    (translator : String → String → String → String) (durOf : String → ℚ)
    (outputDir tmpDir pptxPath : String) (notes images : List String)
    (languages : List Language) :
    run_pipeline_withVoices v1 translator durOf outputDir tmpDir pptxPath
        notes images languages
      = run_pipeline_withVoices v2 translator durOf outputDir tmpDir pptxPath
          notes images languages ∧
    (run_pipeline_withVoices v1 translator durOf outputDir tmpDir pptxPath
        notes images languages).all
        (fun r => r.synthCalls.all (fun c => c.lang == r.code)) = true := by
  refine ⟨rfl, ?_⟩
  rw [List.all_eq_true]
  intro r hr
  rw [List.all_eq_true]
  intro c hc
  have hr' : r ∈ run_pipeline translator durOf outputDir tmpDir pptxPath notes
      images languages := hr
  rcases List.mem_map.mp hr' with ⟨lang, _, rfl⟩
  rw [processLang_synthCalls] at hc
  rw [processLang_code]
  have hlang := (genAudioFiles_snd_mem tmpDir lang.code _ 0 c hc).2
  simp [hlang]

/-- C8: every failure raised by an external call propagates uncaught out
of the pipeline: a failing extraction, a failing slide export, or a
failure while processing one language each make the whole run return that
error, and a failure in one language's processing prevents every later
language from being processed (no recovery of partial results). -/
theorem C8_errors_propagate (ext : Ext) (outputDir tmpDir pptxPath e : String) :
    (∀ languages, ext.extractNotes pptxPath = .error e →
        run_pipelineE ext outputDir tmpDir pptxPath languages = .error e) ∧
    (∀ languages notes, ext.extractNotes pptxPath = .ok notes →
        ext.exportSlides pptxPath tmpDir = .error e →
        run_pipelineE ext outputDir tmpDir pptxPath languages = .error e) ∧
    (∀ notes images pre L post,
        ext.extractNotes pptxPath = .ok notes →
        ext.exportSlides pptxPath tmpDir = .ok images →
        (∀ l ∈ pre, ∃ v,
            processLangE ext outputDir tmpDir pptxPath notes images l = .ok v) →
        processLangE ext outputDir tmpDir pptxPath notes images L = .error e →
        run_pipelineE ext outputDir tmpDir pptxPath (pre ++ L :: post)
          = .error e) := by
  refine ⟨?_, ?_, ?_⟩
  · intro languages h
    simp only [run_pipelineE, h, exceptBind_error]
  · intro languages notes h1 h2
    simp only [run_pipelineE, h1, exceptBind_ok, h2, exceptBind_error]
  · intro notes images pre L post h1 h2 hpre hL
    simp only [run_pipelineE, h1, exceptBind_ok, h2]
    exact processLangsE_append_error ext outputDir tmpDir pptxPath notes images
      pre L post e hpre hL

/-- C8 witness: a concrete run over `[en, fr, es]` where the translation
service raises on the French pass: English succeeds, the error surfaces
from the whole pipeline, and Spanish is never processed. -/
theorem C8_errors_propagate_witness :
    run_pipelineE extFailTranslate "out" "tmp" "deck.pptx"
        [⟨"en", "English"⟩, ⟨"fr", "French"⟩, ⟨"es", "Spanish"⟩]
      = .error "network" := by
  have hpre : ∀ l ∈ [(⟨"en", "English"⟩ : Language)], ∃ v,
      processLangE extFailTranslate "out" "tmp" "deck.pptx" ["Hello"] ["img1"] l
        = .ok v := by
    intro l hl
    rw [List.mem_singleton] at hl
    subst hl
    exact ⟨"out/deck_en.mp4", rfl⟩
  have hL : processLangE extFailTranslate "out" "tmp" "deck.pptx" ["Hello"]
      ["img1"] ⟨"fr", "French"⟩ = .error "network" := rfl
  exact (C8_errors_propagate extFailTranslate "out" "tmp" "deck.pptx"
      "network").2.2 ["Hello"] ["img1"] [⟨"en", "English"⟩] ⟨"fr", "French"⟩
      [⟨"es", "Spanish"⟩] rfl rfl hpre hL

/-- C9: `export_slides_as_images` returns exactly the directory entries
ending in `".JPG"`, each joined under the export directory
`out_dir/slide_image`, sorted by filename. -/
theorem C9_export_listing (listdir : String → List String)
    (pptx_path out_dir : String) :
    (∀ p, p ∈ export_slides_as_images listdir pptx_path out_dir ↔
        ∃ f, f ∈ listdir (joinPath out_dir "slide_image") ∧
          pyEndsWith f ".JPG" = true ∧
          p = joinPath (joinPath out_dir "slide_image") f) ∧
    (∃ fs : List String,
      fs.Pairwise (fun a b => a ≤ b) ∧
      (∀ f ∈ fs, pyEndsWith f ".JPG" = true) ∧
      fs.Perm ((listdir (joinPath out_dir "slide_image")).filter
          (fun f => pyEndsWith f ".JPG")) ∧
      export_slides_as_images listdir pptx_path out_dir
        = fs.map (fun f => joinPath (joinPath out_dir "slide_image") f)) := by
  constructor
  · intro p
    simp only [export_slides_as_images, List.mem_map, List.mem_filter,
      List.mem_mergeSort]
    constructor
    · rintro ⟨f, ⟨hf, he⟩, rfl⟩
      exact ⟨f, hf, he, rfl⟩
    · rintro ⟨f, hf, he, rfl⟩
      exact ⟨f, ⟨hf, he⟩, rfl⟩
  · refine ⟨((listdir (joinPath out_dir "slide_image")).mergeSort
        (fun a b => decide (a ≤ b))).filter (fun f => pyEndsWith f ".JPG"),
      ?_, ?_, ?_, rfl⟩
    · have htrans : ∀ a b c : String, decide (a ≤ b) = true →
          decide (b ≤ c) = true → decide (a ≤ c) = true := by
        intro a b c hab hbc
        simp only [decide_eq_true_eq] at hab hbc ⊢
        exact le_trans hab hbc
      have htot : ∀ a b : String, (decide (a ≤ b) || decide (b ≤ a)) = true := by
        intro a b
        simpa [Bool.or_eq_true, decide_eq_true_eq] using le_total a b
      have hs := List.sorted_mergeSort htrans htot
        (listdir (joinPath out_dir "slide_image"))
      exact (hs.filter (fun f => pyEndsWith f ".JPG")).imp
        (fun h => of_decide_eq_true h)
    · intro f hf
      exact (List.mem_filter.mp hf).2
    · exact List.Perm.filter _ (List.mergeSort_perm _ _)

/-- C9 witness: on a concrete directory listing, an entry ending in
`".JPG"` appears in the result joined under `out/slide_image`. -/
theorem C9_export_listing_witness :
    "out/slide_image/Slide1.JPG" ∈ export_slides_as_images
        (fun _ => ["Slide2.JPG", "Slide1.JPG", "notes.txt"]) "deck.pptx" "out" := by
  exact ((C9_export_listing (fun _ => ["Slide2.JPG", "Slide1.JPG", "notes.txt"])
      "deck.pptx" "out").1 "out/slide_image/Slide1.JPG").mpr
    ⟨"Slide1.JPG", by decide, by decide, rfl⟩

/-- C10: a note consisting only of whitespace is treated as empty
throughout the pipeline: `translate_texts` maps it to the empty string and
never sends it to the translation service, and the narration loop makes no
synthesis call for it, placing `none` at its audio position. -/
theorem C10_whitespace_is_empty (translator : String → String → String → String)
    (target tmpDir code : String) (texts : List String) (i : Nat) (s : String)
    (hs : texts[i]? = some s) (hb : pyBlank s = true) :
    (translate_texts translator texts target).1[i]? = some "" ∧
    (∀ c ∈ (translate_texts translator texts target).2, pyBlank c = false) ∧
    (genAudioFiles tmpDir code 0 texts).1[i]? = some none ∧
    (∀ c ∈ (genAudioFiles tmpDir code 0 texts).2, pyBlank c.text = false) := by
  refine ⟨?_, ?_, ?_, ?_⟩
  · rw [translate_texts_fst, List.getElem?_map, hs]
    simp [hb]
  · intro c hc
    rw [translate_texts_snd] at hc
    simpa using (List.mem_filter.mp hc).2
  · rw [genAudioFiles_fst_getElem, hs]
    simp [hb]
  · intro c hc
    exact (genAudioFiles_snd_mem tmpDir code texts 0 c hc).1

/-- C10 witness: the whitespace-only note `" "` is mapped to `""` by
translation and to `none` by the narration loop. -/
theorem C10_whitespace_is_empty_witness :
    (translate_texts (fun _ _ t => t ++ "!") [" "] "fr").1[0]? = some "" ∧
    (genAudioFiles "tmp" "fr" 0 [" "]).1[0]? = some none := by
  have h := C10_whitespace_is_empty (fun _ _ t => t ++ "!") "fr" "tmp" "fr"
    [" "] 0 " " rfl (by decide)
  exact ⟨h.1, h.2.2.1⟩

end PptxToVideo
